import Mathlib

/-!
Verification of the skillcorner_analysis_toolkit repository.

The development shallowly embeds the two source modules:

* skillcorner_normalisations.py : per-90 / per-30-tip / per-100
  normalisation of pandas dataframes;
* skillcorner_plots.py : the row classification, size mapping,
  standard-deviation label filtering, bar-chart ordering and swarm label
  matching logic of the three chart functions.

A pandas dataframe is modelled as an ordered association list of columns
(column name to list of cell values).  Numeric cells are modelled as exact
rationals where the properties under scrutiny are exact-arithmetic
identities, and as an explicit IEEE-special-value type PFloat (finite
rational, plus infinity, minus infinity, NaN) where the property under
scrutiny is the behaviour of float division at a zero divisor.
-/

namespace SkillCorner

/-! ## String utilities

Python string membership (needle in hay) and str.replace, modelled over
the character list of a Lean string.  The core String functions are
avoided because their implementations do not reduce well; these are plain
structural recursions with the same meaning. -/

/-- Models Python list/str prefix test: needle is a prefix of hay. -/
def listPref : List Char → List Char → Bool
  | [], _ => true
  | _ :: _, [] => false
  | a :: as, b :: bs => a = b && listPref as bs

/-- Helper for hasSub: does needle occur in hay at any position. -/
def listSub (needle : List Char) : List Char → Bool
  | [] => needle.isEmpty
  | c :: t => listPref needle (c :: t) || listSub needle t

/-- Models the Python expression needle in hay for strings. -/
def hasSub (hay needle : String) : Bool :=
  listSub needle.data hay.data

/-- Fuelled all-occurrence replacement on character lists.  The fuel is
the length of the scanned list, which bounds the number of scan steps.
The guard needle not nil mirrors the fact that the source only ever
replaces the fixed nonempty literal per_match. -/
def replaceFuel (needle repl : List Char) : Nat → List Char → List Char
  | _, [] => []
  | 0, s => s
  | Nat.succ f, c :: t =>
    if listPref needle (c :: t) && !needle.isEmpty then
      repl ++ replaceFuel needle repl f (List.drop (needle.length - 1) t)
    else
      c :: replaceFuel needle repl f t

/-- Models Python str.replace(needle, repl): replace every non-overlapping
occurrence of needle, scanning left to right. -/
def pyReplace (s needle repl : String) : String :=
  ⟨replaceFuel needle.data repl.data s.data.length s.data⟩

/-! ## Dataframe model (exact rational cells)

A dataframe is an ordered list of named columns; all rows are aligned by
position, mirroring a pandas dataframe with a shared index.  Column
lookup of an absent name is a KeyError in pandas; the claims below only
read columns that are present, so lookup totalises with the empty
column. -/

structure DataFrame where
  cols : List (String × List ℚ)
deriving DecidableEq

/-- The list of column names, in order (models df.columns). -/
def colNames (df : DataFrame) : List String :=
  df.cols.map Prod.fst

/-- Column lookup (models df[name] for a present column). -/
def getCol (df : DataFrame) (name : String) : List ℚ :=
  match df.cols.find? (fun p => p.1 = name) with
  | some p => p.2
  | none => []

/-- Column assignment (models df[name] = values): overwrite the column in
place when the name exists, otherwise append it on the right, exactly as
pandas does. -/
def setCol (df : DataFrame) (name : String) (values : List ℚ) : DataFrame :=
  if df.cols.any (fun p => p.1 = name) then
    ⟨df.cols.map (fun p => if p.1 = name then (name, values) else p)⟩
  else
    ⟨df.cols ++ [(name, values)]⟩

/-! ## skillcorner_normalisations.py (exact rational model)

Pandas series arithmetic on a shared index is elementwise, hence zipWith
for series/series operations and map for series/scalar operations. -/

/-- Gets per 90 values for a given metric
(skillcorner_normalisations.py, lines 12-13):
df[metric_per_match] / (df[minutes_played_per_match] / 90). -/
def get_per_90 (df : DataFrame) (metric_per_match : String) : List ℚ :=
  List.zipWith (fun x y => x / y)
    (getCol df metric_per_match)
    ((getCol df "minutes_played_per_match").map (fun v => v / 90))

/-- Gets per 30 tip values for a given metric
(skillcorner_normalisations.py, lines 17-18):
df[metric_per_match] / (df[adjusted_min_tip_per_match] / 30). -/
def get_per_30_tip (df : DataFrame) (metric_per_match : String) : List ℚ :=
  List.zipWith (fun x y => x / y)
    (getCol df metric_per_match)
    ((getCol df "adjusted_min_tip_per_match").map (fun v => v / 30))

/-- Gets per 100 values for a given metric and adjustment metric
(skillcorner_normalisations.py, lines 22-23):
df[metric_per_match] / (df[adjustment_metric_per_match] / 100). -/
def get_per_100 (df : DataFrame) (metric_per_match adjustment_metric_per_match : String) :
    List ℚ :=
  List.zipWith (fun x y => x / y)
    (getCol df metric_per_match)
    ((getCol df adjustment_metric_per_match).map (fun v => v / 100))

/-- The loop body of add_per_30_tip_metrics
(skillcorner_normalisations.py, lines 28-34).  The Python loop iterates
over the column index captured at entry while assigning into the (live)
dataframe, so the recursion walks the original name list while threading
the current dataframe state. -/
def addPer30Loop : List String → DataFrame × List String → DataFrame × List String
  | [], acc => acc
  | col :: rest, acc =>
    if hasSub col "count_" && hasSub col "per_match" then
      addPer30Loop rest
        (setCol acc.1 (pyReplace col "per_match" "per_30_tip") (get_per_30_tip acc.1 col),
         acc.2 ++ [pyReplace col "per_match" "per_30_tip"])
    else
      addPer30Loop rest acc

/-- Gets p30 tip metrics for all count metrics
(skillcorner_normalisations.py, lines 27-34). -/
def add_per_30_tip_metrics (df : DataFrame) : DataFrame × List String :=
  addPer30Loop (colNames df) (df, [])

/-! ## skillcorner_plots.py : row classification

Each chart function colours a row from its identifier-column value and
the two highlight groups.  The embeddings below keep the exact sequence
of updates performed by the source, because the order decides which
group wins when an identifier is in both. -/

/-- Bar colour of a row in plot_bar_chart (skillcorner_plots.py, lines
140-158): bars start at base_color; members of either group are repainted
secondary_highlight_color; then members of the primary group are
repainted primary_highlight_color. -/
def barColor (primaryG secondaryG : List String) (pc sc bc : String) (pid : String) : String :=
  let c := bc
  let c := if pid ∈ secondaryG ∨ pid ∈ primaryG then sc else c
  let c := if pid ∈ primaryG then pc else c
  c

/-- Colour of a labelled row in plot_scatter (skillcorner_plots.py, lines
312-314): colour starts at base_color, rows in the secondary group are
set to secondary_highlight_color, then rows in the primary group are set
to primary_highlight_color. -/
def scatterColour (primaryG secondaryG : List String) (pc sc bc : String) (pid : String) :
    String :=
  let c := bc
  let c := if pid ∈ secondaryG then sc else c
  let c := if pid ∈ primaryG then pc else c
  c

/-- swarm_group of a row in plot_swarm_violin (skillcorner_plots.py,
lines 584-590): the group starts at background_group, rows in the
primary group are set first, then rows in the secondary group. -/
def swarmGroup (primaryG secondaryG : List String) (pid : String) : String :=
  let g := "background_group"
  let g := if pid ∈ primaryG then "primary_highlight_group" else g
  let g := if pid ∈ secondaryG then "secondary_highlight_group" else g
  g

/-- colour of a row in plot_swarm_violin (skillcorner_plots.py, lines
585-591): base colour first, then the primary assignment, then the
secondary assignment. -/
def swarmColour (primaryG secondaryG : List String) (pc sc bc : String) (pid : String) :
    String :=
  let c := bc
  let c := if pid ∈ primaryG then pc else c
  let c := if pid ∈ secondaryG then sc else c
  c

/-! ## skillcorner_plots.py : size mapper of plot_scatter -/

/-- Observed column minimum, models df[z_metric].min() on a nonempty
numeric column (an empty pandas column gives NaN; the claims only use
nonempty columns). -/
def listMinQ : List ℚ → ℚ
  | [] => 0
  | a :: t => t.foldl min a

/-- Observed column maximum, models df[z_metric].max() on a nonempty
numeric column. -/
def listMaxQ : List ℚ → ℚ
  | [] => 0
  | a :: t => t.foldl max a

/-- Size of one row in plot_scatter (skillcorner_plots.py, lines
282-291): ((value - old_min) * (new_max - new_min)) / (old_max - old_min)
+ new_min with new bounds 50 and 300. -/
def sizeVal (oldMin oldMax v : ℚ) : ℚ :=
  ((v - oldMin) * (300 - 50)) / (oldMax - oldMin) + 50

/-- The size column computed by plot_scatter for a z_metric column
(skillcorner_plots.py, lines 282-292). -/
def scatterSizes (col : List ℚ) : List ℚ :=
  col.map (sizeVal (listMinQ col) (listMaxQ col))

/-! ## skillcorner_plots.py : standard-deviation label filter of
plot_scatter (lines 300-309)

A scatter row carries the x metric, the y metric and the identifier
column value. -/

structure ScatterRow where
  x : ℚ
  y : ℚ
  id : String
deriving DecidableEq

/-- Mean of a pandas numeric series (sum over length). -/
def qMean (l : List ℚ) : ℚ :=
  l.sum / l.length

/-- Sample variance of a pandas numeric series, the square of
df[c].std(): squared deviations from the mean over (length - 1). -/
def qVar (l : List ℚ) : ℚ :=
  (l.map (fun x => (x - qMean l) ^ 2)).sum / ((l.length : ℚ) - 1)

/-- Models the float comparison x > mean + k * sqrt var (var ≥ 0) used by
the filter, encoded over the rationals by a sign analysis so that it
stays computable: with d := x - mean, for k ≥ 0 the comparison holds iff
0 < d and k ^ 2 * var < d ^ 2, and for k < 0 it holds iff 0 < d or
d ^ 2 < k ^ 2 * var. -/
def gtMeanPlusSd (x mean k var : ℚ) : Bool :=
  let d := x - mean
  if 0 ≤ k then decide (0 < d) && decide (k ^ 2 * var < d ^ 2)
  else decide (0 < d) || decide (d ^ 2 < k ^ 2 * var)

/-- The label_group selection of plot_scatter (skillcorner_plots.py,
lines 300-309).  When x_sd_highlight is not None the source evaluates
y_sd_highlight * df[y_metric].std() inside the mask; with y_sd_highlight
= None this multiplies None by a float, raising TypeError (modelled as
the error branch) before anything is drawn.  When x_sd_highlight is None
only group membership is consulted and y_sd_highlight is never read. -/
def scatterLabelGroup (rows : List ScatterRow) (x_sd y_sd : Option ℚ)
    (primaryG secondaryG : List String) : Except String (List ScatterRow) :=
  match x_sd with
  | some xv =>
    match y_sd with
    | none => .error "TypeError: unsupported operand type(s) for *: NoneType and float"
    | some yv =>
      .ok (rows.filter (fun r =>
        gtMeanPlusSd r.x (qMean (rows.map ScatterRow.x)) xv (qVar (rows.map ScatterRow.x)) ||
        gtMeanPlusSd r.y (qMean (rows.map ScatterRow.y)) yv (qVar (rows.map ScatterRow.y)) ||
        secondaryG.contains r.id || primaryG.contains r.id))
  | none =>
      .ok (rows.filter (fun r => secondaryG.contains r.id || primaryG.contains r.id))

/-- The label texts drawn by plot_scatter for the label group
(skillcorner_plots.py, lines 339-350, with data_point_label left at its
default player_name): drawn only after the filter step succeeded. -/
def scatterLabelTexts (rows : List ScatterRow) (x_sd y_sd : Option ℚ)
    (primaryG secondaryG : List String) : Except String (List String) :=
  match scatterLabelGroup rows x_sd y_sd primaryG secondaryG with
  | .error e => .error e
  | .ok lg => .ok (lg.map ScatterRow.id)

/-! ## skillcorner_plots.py : bar chart ordering (lines 126-131, 186-187)

A bar-chart row carries the x metric value, the identifier and the
displayed label. -/

structure BarRow where
  x : ℚ
  id : String
  label : String
deriving DecidableEq

instance barRowLe : DecidableRel (fun a b : BarRow => a.x ≤ b.x) :=
  fun a b => inferInstanceAs (Decidable (a.x ≤ b.x))

instance : IsTotal BarRow (fun a b => a.x ≤ b.x) :=
  ⟨fun a b => le_total a.x b.x⟩

instance : IsTrans BarRow (fun a b => a.x ≤ b.x) :=
  ⟨fun _ _ _ h₁ h₂ => le_trans h₁ h₂⟩

/-- df.sort_values(by=x_metric) in plot_bar_chart (skillcorner_plots.py,
line 127): the rows sorted ascending by the x metric.  pandas keeps the
tie order unspecified (quicksort); the embedding uses a deterministic
sort, and the properties proved below do not depend on tie order. -/
def sortRows (df : List BarRow) : List BarRow :=
  List.insertionSort (fun a b => a.x ≤ b.x) df

/-- The bar lengths, bottom bar first (skillcorner_plots.py, lines
128-132: ax.barh over y_pos = range(len(df)) of the sorted frame). -/
def barValues (df : List BarRow) : List ℚ :=
  (sortRows df).map BarRow.x

/-- The y tick labels, bottom tick first (skillcorner_plots.py, lines
186-187: set_yticklabels(df[data_point_label]) on the sorted frame). -/
def barYTickLabels (df : List BarRow) : List String :=
  (sortRows df).map BarRow.label

/-! ## skillcorner_plots.py : swarm label-offset matching (lines 628-668)

label_df holds, for one category group, the classified (non-background)
rows with their x metric value and display label; offsets holds the
jitter positions reported by the renderer for that group. -/

structure SwarmLabelRow where
  x : ℚ
  label : String
deriving DecidableEq

/-- Label placement for one category group of plot_swarm_violin
(skillcorner_plots.py, lines 636-651): only when the classified row
count equals the offset count are the rows matched positionally to the
offsets and texts placed at (row x metric, offset y); otherwise the
group is skipped and nothing is placed. -/
def placeGroupLabels (labelRows : List SwarmLabelRow) (offsets : List (ℚ × ℚ)) :
    List (ℚ × ℚ × String) :=
  if labelRows.length = offsets.length then
    (labelRows.zip offsets).map (fun p => (p.1.x, p.2.2, p.1.label))
  else
    []

/-! ## Float model with IEEE special values

The zero-divisor claims are about numpy float behaviour: dividing by
zero inside a pandas expression produces inf, -inf or nan and raises no
exception.  PFloat models a float as an exact rational plus the three
special values; signed zero is not modelled (the division cases that
would distinguish -0.0 are never reached by the properties proved
below). -/

inductive PFloat where
  | fin : ℚ → PFloat
  | inf : PFloat
  | neginf : PFloat
  | nan : PFloat
deriving DecidableEq

namespace PFloat

/-- Float addition. -/
def add : PFloat → PFloat → PFloat
  | nan, _ => nan
  | _, nan => nan
  | fin a, fin b => fin (a + b)
  | inf, neginf => nan
  | neginf, inf => nan
  | inf, _ => inf
  | _, inf => inf
  | neginf, _ => neginf
  | _, neginf => neginf

/-- Float subtraction. -/
def sub : PFloat → PFloat → PFloat
  | nan, _ => nan
  | _, nan => nan
  | fin a, fin b => fin (a - b)
  | inf, inf => nan
  | neginf, neginf => nan
  | inf, _ => inf
  | neginf, _ => neginf
  | _, inf => neginf
  | _, neginf => inf

/-- Float multiplication. -/
def mul : PFloat → PFloat → PFloat
  | nan, _ => nan
  | _, nan => nan
  | fin a, fin b => fin (a * b)
  | inf, fin b => if 0 < b then inf else if b < 0 then neginf else nan
  | fin a, inf => if 0 < a then inf else if a < 0 then neginf else nan
  | neginf, fin b => if 0 < b then neginf else if b < 0 then inf else nan
  | fin a, neginf => if 0 < a then neginf else if a < 0 then inf else nan
  | inf, inf => inf
  | neginf, neginf => inf
  | inf, neginf => neginf
  | neginf, inf => neginf

/-- Float division: numpy semantics at a zero divisor, x / 0.0 is inf,
-inf or nan by the sign of x, with a runtime warning but no exception. -/
def div : PFloat → PFloat → PFloat
  | nan, _ => nan
  | _, nan => nan
  | fin a, fin b =>
      if b ≠ 0 then fin (a / b)
      else if 0 < a then inf
      else if a < 0 then neginf
      else nan
  | fin _, inf => fin 0
  | fin _, neginf => fin 0
  | inf, fin b => if 0 ≤ b then inf else neginf
  | neginf, fin b => if 0 ≤ b then neginf else inf
  | inf, inf => nan
  | inf, neginf => nan
  | neginf, inf => nan
  | neginf, neginf => nan

/-- Finiteness test: only fin values are finite. -/
def isFinite : PFloat → Bool
  | fin _ => true
  | _ => false

/-- Comparison used to fold pandas max/min over non-nan values:
-inf below every finite value below inf. -/
def leB : PFloat → PFloat → Bool
  | nan, _ => false
  | _, nan => false
  | neginf, _ => true
  | _, inf => true
  | fin a, fin b => decide (a ≤ b)
  | inf, _ => false
  | fin _, neginf => false

end PFloat

/-- Binary max for the pandas skipna max fold. -/
def pfMax (a b : PFloat) : PFloat :=
  if PFloat.leB a b then b else a

/-- Binary min for the pandas skipna min fold. -/
def pfMin (a b : PFloat) : PFloat :=
  if PFloat.leB a b then a else b

/-- df[c].max() over floats: nan entries are skipped, the empty result is
nan. -/
def colMaxF (l : List PFloat) : PFloat :=
  match l.filter (fun v => v ≠ PFloat.nan) with
  | [] => PFloat.nan
  | a :: t => t.foldl pfMax a

/-- df[c].min() over floats, skipna like colMaxF. -/
def colMinF (l : List PFloat) : PFloat :=
  match l.filter (fun v => v ≠ PFloat.nan) with
  | [] => PFloat.nan
  | a :: t => t.foldl pfMin a

/-- Column lookup in the float view of a dataframe. -/
def getColF (cols : List (String × List PFloat)) (name : String) : List PFloat :=
  match cols.find? (fun p => p.1 = name) with
  | some p => p.2
  | none => []

/-- get_per_90 over the float model (skillcorner_normalisations.py,
lines 12-13): the same elementwise formula with float division. -/
def get_per_90F (cols : List (String × List PFloat)) (metric_per_match : String) :
    List PFloat :=
  List.zipWith PFloat.div
    (getColF cols metric_per_match)
    ((getColF cols "minutes_played_per_match").map (fun v => PFloat.div v (PFloat.fin 90)))

/-- The size column of plot_scatter over the float model
(skillcorner_plots.py, lines 282-292). -/
def scatterSizesF (col : List PFloat) : List PFloat :=
  let oldMax := colMaxF col
  let oldMin := colMinF col
  let oldRange := PFloat.sub oldMax oldMin
  let newRange := PFloat.sub (PFloat.fin 300) (PFloat.fin 50)
  col.map (fun v =>
    PFloat.add (PFloat.div (PFloat.mul (PFloat.sub v oldMin) newRange) oldRange)
      (PFloat.fin 50))

/-! ## Spec-side constructions -/

/-- The scaling transformation the scale-invariance property speaks
about: multiply every value of the named column by the constant c.  This
is a spec-side construction (the statement quantifies over datasets
whose columns have been rescaled), not source code. -/
def scaleCol (df : DataFrame) (name : String) (c : ℚ) : DataFrame :=
  ⟨df.cols.map (fun p => if p.1 = name then (p.1, p.2.map (fun x => c * x)) else p)⟩

/-! ## Helper lemmas -/

theorem foldl_min_le_init (t : List ℚ) (a : ℚ) : t.foldl min a ≤ a := by
  induction t generalizing a with
  | nil => exact le_refl a
  | cons b t ih => exact le_trans (ih (min a b)) (min_le_left a b)

theorem foldl_min_le_mem (t : List ℚ) (a v : ℚ) (hv : v ∈ t) : t.foldl min a ≤ v := by
  induction t generalizing a with
  | nil => cases hv
  | cons b t ih =>
    rcases List.mem_cons.1 hv with h | h
    · subst h
      exact le_trans (foldl_min_le_init t (min a v)) (min_le_right a v)
    · exact ih (min a b) h

theorem init_le_foldl_max (t : List ℚ) (a : ℚ) : a ≤ t.foldl max a := by
  induction t generalizing a with
  | nil => exact le_refl a
  | cons b t ih => exact le_trans (le_max_left a b) (ih (max a b))

theorem mem_le_foldl_max (t : List ℚ) (a v : ℚ) (hv : v ∈ t) : v ≤ t.foldl max a := by
  induction t generalizing a with
  | nil => cases hv
  | cons b t ih =>
    rcases List.mem_cons.1 hv with h | h
    · subst h
      exact le_trans (le_max_right a v) (init_le_foldl_max t (max a v))
    · exact ih (max a b) h

theorem listMinQ_le (l : List ℚ) (v : ℚ) (hv : v ∈ l) : listMinQ l ≤ v := by
  cases l with
  | nil => cases hv
  | cons a t =>
    rcases List.mem_cons.1 hv with h | h
    · subst h; exact foldl_min_le_init t v
    · exact foldl_min_le_mem t a v h

theorem le_listMaxQ (l : List ℚ) (v : ℚ) (hv : v ∈ l) : v ≤ listMaxQ l := by
  cases l with
  | nil => cases hv
  | cons a t =>
    rcases List.mem_cons.1 hv with h | h
    · subst h; exact init_le_foldl_max t v
    · exact mem_le_foldl_max t a v h

theorem find?_map_eq (cols : List (String × List ℚ)) (g : String × List ℚ → String × List ℚ)
    (hfst : ∀ p, (g p).1 = p.1) (m : String) :
    (cols.map g).find? (fun p => p.1 = m) = (cols.find? (fun p => p.1 = m)).map g := by
  induction cols with
  | nil => rfl
  | cons p t ih =>
    by_cases h : p.1 = m
    · simp [List.find?_cons, hfst, h]
    · simp [List.find?_cons, hfst, h, ih]

theorem find?_append_pair (l : List (String × List ℚ)) (q : String × List ℚ) (m : String)
    (hq : q.1 ≠ m) : (l ++ [q]).find? (fun p => p.1 = m) = l.find? (fun p => p.1 = m) := by
  induction l with
  | nil => simp [List.find?_cons, hq]
  | cons p t ih => by_cases h : p.1 = m <;> simp [List.find?_cons, h, ih]

theorem getCol_setCol_ne (d : DataFrame) (n : String) (v : List ℚ) (m : String)
    (hm : m ≠ n) : getCol (setCol d n v) m = getCol d m := by
  have hfst : ∀ p : String × List ℚ, (if p.1 = n then (n, v) else p).1 = p.1 := by
    intro p
    by_cases hp : p.1 = n <;> simp [hp]
  by_cases hany : (d.cols.any fun p => p.1 = n) = true
  · unfold setCol
    rw [if_pos hany]
    unfold getCol
    rw [find?_map_eq d.cols (fun p => if p.1 = n then (n, v) else p) hfst m]
    cases hf : d.cols.find? (fun p => p.1 = m) with
    | none => simp
    | some p =>
      have hp := List.find?_some hf
      simp only [decide_eq_true_eq] at hp
      have hpn : ¬ p.1 = n := by rw [hp]; exact hm
      simp [hpn]
  · unfold setCol
    rw [if_neg hany]
    unfold getCol
    rw [find?_append_pair d.cols (n, v) m (fun h => hm h.symm)]

theorem getCol_setCol_self (d : DataFrame) (n : String) (v : List ℚ) :
    getCol (setCol d n v) n = v := by
  have hfst : ∀ p : String × List ℚ, (if p.1 = n then (n, v) else p).1 = p.1 := by
    intro p
    by_cases hp : p.1 = n <;> simp [hp]
  by_cases hany : (d.cols.any fun p => p.1 = n) = true
  · unfold setCol
    rw [if_pos hany]
    unfold getCol
    rw [find?_map_eq d.cols (fun p => if p.1 = n then (n, v) else p) hfst n]
    simp only [List.any_eq_true, decide_eq_true_eq] at hany
    obtain ⟨p0, hp0, he0⟩ := hany
    cases hf : d.cols.find? (fun p => p.1 = n) with
    | none =>
      rw [List.find?_eq_none] at hf
      exact absurd (by simpa using he0) (by simpa using hf p0 hp0)
    | some p =>
      have hp := List.find?_some hf
      simp only [decide_eq_true_eq] at hp
      simp [hp]
  · unfold setCol
    rw [if_neg hany]
    unfold getCol
    have hnone : d.cols.find? (fun p => p.1 = n) = none := by
      rw [List.find?_eq_none]
      intro p hp
      simp only [Bool.not_eq_true, decide_eq_false_iff_not]
      intro he
      exact hany (List.any_eq_true.2 ⟨p, hp, by simpa using he⟩)
    rw [List.find?_append, hnone]
    simp [List.find?_cons]

theorem colNames_setCol (d : DataFrame) (n : String) (v : List ℚ) :
    colNames (setCol d n v) =
      if d.cols.any (fun p => p.1 = n) then colNames d else colNames d ++ [n] := by
  unfold setCol colNames
  split
  · simp only [List.map_map, if_pos]
    congr 1
    funext p
    by_cases hp : p.1 = n <;> simp [hp]
  · simp

theorem mem_colNames_setCol (d : DataFrame) (n : String) (v : List ℚ) (m : String)
    (h : m ∈ colNames d) : m ∈ colNames (setCol d n v) := by
  rw [colNames_setCol]
  split
  · exact h
  · exact List.mem_append_left _ h

theorem self_mem_colNames_setCol (d : DataFrame) (n : String) (v : List ℚ) :
    n ∈ colNames (setCol d n v) := by
  rw [colNames_setCol]
  split
  · rename_i hany
    simp only [List.any_eq_true, decide_eq_true_eq] at hany
    obtain ⟨p, hp, he⟩ := hany
    exact List.mem_map.2 ⟨p, hp, he⟩
  · exact List.mem_append_right _ (by simp)

theorem getCol_scaleCol_self (df : DataFrame) (n : String) (c : ℚ) :
    getCol (scaleCol df n c) n = (getCol df n).map (fun x => c * x) := by
  have hfst : ∀ p : String × List ℚ,
      (if p.1 = n then (p.1, p.2.map (fun x => c * x)) else p).1 = p.1 := by
    intro p
    by_cases hp : p.1 = n <;> simp [hp]
  unfold getCol scaleCol
  rw [find?_map_eq df.cols (fun p => if p.1 = n then (p.1, p.2.map (fun x => c * x)) else p)
    hfst n]
  cases hf : df.cols.find? (fun p => p.1 = n) with
  | none => simp
  | some p =>
    have hp := List.find?_some hf
    simp only [decide_eq_true_eq] at hp
    simp [hp]

theorem getCol_scaleCol_ne (df : DataFrame) (n : String) (c : ℚ) (m : String)
    (hm : m ≠ n) : getCol (scaleCol df n c) m = getCol df m := by
  have hfst : ∀ p : String × List ℚ,
      (if p.1 = n then (p.1, p.2.map (fun x => c * x)) else p).1 = p.1 := by
    intro p
    by_cases hp : p.1 = n <;> simp [hp]
  unfold getCol scaleCol
  rw [find?_map_eq df.cols (fun p => if p.1 = n then (p.1, p.2.map (fun x => c * x)) else p)
    hfst m]
  cases hf : df.cols.find? (fun p => p.1 = m) with
  | none => simp
  | some p =>
    have hp := List.find?_some hf
    simp only [decide_eq_true_eq] at hp
    have hpn : ¬ p.1 = n := by rw [hp]; exact hm
    simp [hpn]

theorem addPer30Loop_snd (names : List String) (d : DataFrame) (ms : List String) :
    (addPer30Loop names (d, ms)).2 =
      ms ++ ((names.filter (fun c => hasSub c "count_" && hasSub c "per_match")).map
        (fun c => pyReplace c "per_match" "per_30_tip")) := by
  induction names generalizing d ms with
  | nil => simp [addPer30Loop]
  | cons c rest ih =>
    by_cases h : (hasSub c "count_" && hasSub c "per_match") = true
    · simp only [addPer30Loop]
      rw [if_pos h, ih]
      simp [List.filter_cons, h]
    · simp only [addPer30Loop]
      rw [if_neg h, ih]
      simp [List.filter_cons, h]

theorem addPer30Loop_mem (names : List String) (d : DataFrame) (ms : List String) (m : String)
    (h : m ∈ colNames d) : m ∈ colNames (addPer30Loop names (d, ms)).1 := by
  induction names generalizing d ms with
  | nil => simpa [addPer30Loop] using h
  | cons c rest ih =>
    by_cases hc : (hasSub c "count_" && hasSub c "per_match") = true
    · simp only [addPer30Loop]
      rw [if_pos hc]
      exact ih _ _ (mem_colNames_setCol _ _ _ _ h)
    · simp only [addPer30Loop]
      rw [if_neg hc]
      exact ih _ _ h

theorem addPer30Loop_gen (names : List String) (d : DataFrame) (ms : List String) (c : String)
    (hc : c ∈ names) (hcond : (hasSub c "count_" && hasSub c "per_match") = true) :
    pyReplace c "per_match" "per_30_tip" ∈ colNames (addPer30Loop names (d, ms)).1 := by
  induction names generalizing d ms with
  | nil => cases hc
  | cons a rest ih =>
    rcases List.mem_cons.1 hc with h | h
    · subst h
      simp only [addPer30Loop]
      rw [if_pos hcond]
      exact addPer30Loop_mem rest _ _ _ (self_mem_colNames_setCol _ _ _)
    · by_cases ha : (hasSub a "count_" && hasSub a "per_match") = true
      · simp only [addPer30Loop]
        rw [if_pos ha]
        exact ih _ _ h
      · simp only [addPer30Loop]
        rw [if_neg ha]
        exact ih _ _ h

theorem addPer30Loop_getCol (names : List String) (d : DataFrame) (ms : List String)
    (name : String)
    (h : name ∉ (names.filter (fun c => hasSub c "count_" && hasSub c "per_match")).map
        (fun c => pyReplace c "per_match" "per_30_tip")) :
    getCol (addPer30Loop names (d, ms)).1 name = getCol d name := by
  induction names generalizing d ms with
  | nil => simp [addPer30Loop]
  | cons c rest ih =>
    by_cases hc : (hasSub c "count_" && hasSub c "per_match") = true
    · simp only [List.filter_cons, hc, if_pos, List.map_cons, List.mem_cons, not_or] at h
      obtain ⟨h1, h2⟩ := h
      simp only [addPer30Loop]
      rw [if_pos hc, ih _ _ h2, getCol_setCol_ne _ _ _ _ h1]
    · simp only [List.filter_cons, hc] at h
      simp only [addPer30Loop]
      rw [if_neg hc]
      exact ih _ _ (by simpa using h)

theorem foldl_pfMax_const (q : ℚ) (t : List PFloat) (h : ∀ v ∈ t, v = PFloat.fin q) :
    t.foldl pfMax (PFloat.fin q) = PFloat.fin q := by
  induction t with
  | nil => rfl
  | cons b t ih =>
    have hb := h b (List.mem_cons_self b t)
    have hstep : pfMax (PFloat.fin q) (PFloat.fin q) = PFloat.fin q := by
      simp [pfMax, PFloat.leB]
    rw [List.foldl_cons, hb, hstep]
    exact ih (fun v hv => h v (List.mem_cons_of_mem _ hv))

theorem foldl_pfMin_const (q : ℚ) (t : List PFloat) (h : ∀ v ∈ t, v = PFloat.fin q) :
    t.foldl pfMin (PFloat.fin q) = PFloat.fin q := by
  induction t with
  | nil => rfl
  | cons b t ih =>
    have hb := h b (List.mem_cons_self b t)
    have hstep : pfMin (PFloat.fin q) (PFloat.fin q) = PFloat.fin q := by
      simp [pfMin, PFloat.leB]
    rw [List.foldl_cons, hb, hstep]
    exact ih (fun v hv => h v (List.mem_cons_of_mem _ hv))

theorem colMaxF_const (col : List PFloat) (q : ℚ) (h : ∀ v ∈ col, v = PFloat.fin q)
    (hne : col ≠ []) : colMaxF col = PFloat.fin q := by
  have hfil : col.filter (fun v => v ≠ PFloat.nan) = col :=
    List.filter_eq_self.2 (fun a ha => by simp [h a ha])
  cases col with
  | nil => exact absurd rfl hne
  | cons a t =>
    have ha := h a (List.mem_cons_self a t)
    unfold colMaxF
    rw [hfil]
    simp only []
    rw [ha]
    exact foldl_pfMax_const q t (fun v hv => h v (List.mem_cons_of_mem _ hv))

theorem colMinF_const (col : List PFloat) (q : ℚ) (h : ∀ v ∈ col, v = PFloat.fin q)
    (hne : col ≠ []) : colMinF col = PFloat.fin q := by
  have hfil : col.filter (fun v => v ≠ PFloat.nan) = col :=
    List.filter_eq_self.2 (fun a ha => by simp [h a ha])
  cases col with
  | nil => exact absurd rfl hne
  | cons a t =>
    have ha := h a (List.mem_cons_self a t)
    unfold colMinF
    rw [hfil]
    simp only []
    rw [ha]
    exact foldl_pfMin_const q t (fun v hv => h v (List.mem_cons_of_mem _ hv))

/-! ## Claims -/

/-- C1 (counterexample): the claim says every chart function gives the
primary class and colour to a row whose identifier is in both highlight
groups.  In plot_swarm_violin the primary assignment runs before the
secondary one, so a row in both groups ends with the secondary swarm
group and the secondary colour: with both groups equal to the single
identifier Player A and the default colours, the computed swarm group is
secondary_highlight_group and the colour is the secondary yellow, which
differ from the primary class and the primary red. -/
theorem highlight_precedence_cex :
    swarmGroup ["Player A"] ["Player A"] "Player A" = "secondary_highlight_group" ∧
    swarmColour ["Player A"] ["Player A"] "#EE7A6F" "#F6C243" "#80CBA2" "Player A"
      = "#F6C243" ∧
    ("secondary_highlight_group" : String) ≠ "primary_highlight_group" ∧
    ("#F6C243" : String) ≠ "#EE7A6F" := by
  decide

/-- C1 (amended): for a row whose identifier lies in both highlight
groups, plot_bar_chart and plot_scatter assign the primary colour, while
plot_swarm_violin assigns the secondary swarm group and the secondary
colour, because its primary assignment runs before its secondary one. -/
theorem highlight_precedence_amended (pg sg : List String) (pc sc bc pid : String)
    (hp : pid ∈ pg) (hs : pid ∈ sg) :
    barColor pg sg pc sc bc pid = pc ∧
    scatterColour pg sg pc sc bc pid = pc ∧
    swarmGroup pg sg pid = "secondary_highlight_group" ∧
    swarmColour pg sg pc sc bc pid = sc := by
  refine ⟨?_, ?_, ?_, ?_⟩ <;> simp [barColor, scatterColour, swarmGroup, swarmColour, hp, hs]

/-- Witness for the amended C1 at a concrete input. -/
theorem highlight_precedence_amended_witness :
    barColor ["p1"] ["p1"] "#EE7A6F" "#F6C243" "#80CBA2" "p1" = "#EE7A6F" ∧
    scatterColour ["p1"] ["p1"] "#EE7A6F" "#F6C243" "#80CBA2" "p1" = "#EE7A6F" ∧
    swarmGroup ["p1"] ["p1"] "p1" = "secondary_highlight_group" ∧
    swarmColour ["p1"] ["p1"] "#EE7A6F" "#F6C243" "#80CBA2" "p1" = "#F6C243" :=
  highlight_precedence_amended ["p1"] ["p1"] "#EE7A6F" "#F6C243" "#80CBA2" "p1"
    (by decide) (by decide)

/-- C2: get_per_90 returns, rowwise, metric / (minutes_played_per_match /
90); on the dataset with metric_per_match = [10, 20, 30] and
minutes_played_per_match = [90, 45, 30] it yields [10, 40, 90]. -/
theorem get_per_90_spec :
    (∀ (df : DataFrame) (metric : String) (i : Nat),
        i < (get_per_90 df metric).length →
        (get_per_90 df metric).getD i 0 =
          (getCol df metric).getD i 0 /
            ((getCol df "minutes_played_per_match").getD i 0 / 90)) ∧
    get_per_90 ⟨[("metric_per_match", [10, 20, 30]),
                 ("minutes_played_per_match", [90, 45, 30])]⟩ "metric_per_match"
      = [10, 40, 90] := by
  constructor
  · intro df metric i hi
    have hmin := hi
    simp only [get_per_90, List.length_zipWith, List.length_map, lt_min_iff] at hmin
    obtain ⟨h1, h2⟩ := hmin
    simp only [get_per_90] at hi ⊢
    rw [List.getD_eq_getElem _ _ hi, List.getD_eq_getElem _ _ h1,
      List.getD_eq_getElem _ _ h2]
    simp [List.getElem_zipWith, List.getElem_map]
  · simp only [get_per_90, getCol, List.find?, String.reduceEq, decide_True, decide_False,
      List.map_cons, List.map_nil, List.zipWith_cons_cons, List.zipWith_nil_right]
    norm_num

/-- Witness for C2 at row 0 of the example dataset. -/
theorem get_per_90_spec_witness :
    (get_per_90 ⟨[("metric_per_match", [10, 20, 30]),
                  ("minutes_played_per_match", [90, 45, 30])]⟩ "metric_per_match").getD 0 0 =
      (getCol ⟨[("metric_per_match", [10, 20, 30]),
                ("minutes_played_per_match", [90, 45, 30])]⟩ "metric_per_match").getD 0 0 /
        ((getCol ⟨[("metric_per_match", [10, 20, 30]),
                   ("minutes_played_per_match", [90, 45, 30])]⟩
            "minutes_played_per_match").getD 0 0 / 90) :=
  get_per_90_spec.1 _ "metric_per_match" 0 (by
    simp only [get_per_90, getCol, List.find?, String.reduceEq, decide_True, decide_False,
      List.map_cons, List.map_nil, List.zipWith_cons_cons, List.zipWith_nil_right]
    norm_num)

/-- C7: in plot_swarm_violin, labels of a category group are placed only
when the classified row count equals the renderer offset count; on a
length mismatch the group is skipped (no labels, no exception), and on a
match one label per classified row is produced. -/
theorem swarm_label_length_guard :
    (∀ (lr : List SwarmLabelRow) (offs : List (ℚ × ℚ)),
        lr.length ≠ offs.length → placeGroupLabels lr offs = []) ∧
    (∀ (lr : List SwarmLabelRow) (offs : List (ℚ × ℚ)),
        lr.length = offs.length → (placeGroupLabels lr offs).length = lr.length) := by
  constructor
  · intro lr offs h
    simp [placeGroupLabels, h]
  · intro lr offs h
    simp [placeGroupLabels, h, List.length_zip]

/-- Witness for C7: one classified row against an empty offset list is
skipped. -/
theorem swarm_label_length_guard_witness :
    placeGroupLabels [⟨1, "Player A"⟩] [] = [] :=
  swarm_label_length_guard.1 [⟨1, "Player A"⟩] [] (by decide)

/-- C9: in plot_scatter with x_sd_highlight set and y_sd_highlight None,
the standard-deviation filter multiplies None by a float and the call
errors out before any labels are drawn; and with x_sd_highlight None the
y_sd_highlight parameter is never consulted. -/
theorem scatter_sd_none_type_error :
    (∀ (rows : List ScatterRow) (xv : ℚ) (pg sg : List String),
        scatterLabelTexts rows (some xv) none pg sg =
          Except.error "TypeError: unsupported operand type(s) for *: NoneType and float") ∧
    (∀ (rows : List ScatterRow) (y1 y2 : Option ℚ) (pg sg : List String),
        scatterLabelGroup rows none y1 pg sg = scatterLabelGroup rows none y2 pg sg) :=
  ⟨fun _ _ _ _ => rfl, fun _ _ _ _ _ => rfl⟩

/-- C3: the plot_scatter size mapper keeps every value between the
observed column minimum and maximum inside [50, 300]; a value equal to
the observed maximum maps exactly to 300 and one equal to the observed
minimum maps exactly to 50 (for a nondegenerate column, min < max, the
degenerate case being the documented zero-divisor precondition); the
column [0, 5, 10] maps to [50, 175, 300]. -/
theorem size_mapper_spec :
    (∀ (col : List ℚ) (v : ℚ), v ∈ col → listMinQ col < listMaxQ col →
        50 ≤ sizeVal (listMinQ col) (listMaxQ col) v ∧
        sizeVal (listMinQ col) (listMaxQ col) v ≤ 300) ∧
    (∀ col : List ℚ, listMinQ col < listMaxQ col →
        sizeVal (listMinQ col) (listMaxQ col) (listMaxQ col) = 300 ∧
        sizeVal (listMinQ col) (listMaxQ col) (listMinQ col) = 50) ∧
    scatterSizes [0, 5, 10] = [50, 175, 300] := by
  refine ⟨?_, ?_, ?_⟩
  · intro col v hv hlt
    have h1 : listMinQ col ≤ v := listMinQ_le col v hv
    have h2 : v ≤ listMaxQ col := le_listMaxQ col v hv
    have hr : (0 : ℚ) < listMaxQ col - listMinQ col := by linarith
    unfold sizeVal
    constructor
    · have hnn : (0 : ℚ) ≤
          ((v - listMinQ col) * (300 - 50)) / (listMaxQ col - listMinQ col) :=
        div_nonneg (mul_nonneg (by linarith) (by norm_num)) (le_of_lt hr)
      linarith
    · have hdiv : ((v - listMinQ col) * (300 - 50)) / (listMaxQ col - listMinQ col) ≤ 250 := by
        rw [div_le_iff₀ hr]
        nlinarith
      linarith
  · intro col hlt
    have hne : listMaxQ col - listMinQ col ≠ 0 := sub_ne_zero.2 (ne_of_gt hlt)
    constructor
    · unfold sizeVal
      field_simp
    · unfold sizeVal
      simp
  · norm_num [scatterSizes, sizeVal, listMinQ, listMaxQ, List.foldl, min_def, max_def]

/-- Witness for C3 at the middle value of the example column. -/
theorem size_mapper_spec_witness :
    50 ≤ sizeVal (listMinQ [0, 5, 10]) (listMaxQ [0, 5, 10]) 5 ∧
    sizeVal (listMinQ [0, 5, 10]) (listMaxQ [0, 5, 10]) 5 ≤ 300 :=
  size_mapper_spec.1 [0, 5, 10] 5 (by norm_num)
    (by norm_num [listMinQ, listMaxQ, List.foldl, min_def, max_def])

theorem zipWith_div_scale (c : ℚ) (hc : c ≠ 0) (xs ys : List ℚ) :
    List.zipWith (fun x y => x / y) (xs.map (fun v => c * v))
      ((ys.map (fun v => c * v)).map (fun v => v / 100)) =
    List.zipWith (fun x y => x / y) xs (ys.map (fun v => v / 100)) := by
  induction xs generalizing ys with
  | nil => simp
  | cons x xs ih =>
    cases ys with
    | nil => simp
    | cons y ys =>
      simp only [List.map_cons, List.zipWith_cons_cons]
      rw [ih]
      congr 1
      rw [mul_div_assoc c y 100]
      exact mul_div_mul_left x (y / 100) hc

/-- C6: get_per_100 is scale-invariant: multiplying both the metric
column and the adjustment column of every row by the same nonzero
rational constant leaves the result unchanged. -/
theorem get_per_100_scale_invariant (df : DataFrame) (m a : String) (c : ℚ)
    (hma : m ≠ a) (hc : c ≠ 0) :
    get_per_100 (scaleCol (scaleCol df m c) a c) m a = get_per_100 df m a := by
  have hm : getCol (scaleCol (scaleCol df m c) a c) m
      = (getCol df m).map (fun x => c * x) := by
    rw [getCol_scaleCol_ne _ _ _ _ hma, getCol_scaleCol_self]
  have ha2 : getCol (scaleCol (scaleCol df m c) a c) a
      = (getCol df a).map (fun x => c * x) := by
    rw [getCol_scaleCol_self, getCol_scaleCol_ne df m c a hma.symm]
  unfold get_per_100
  rw [hm, ha2]
  exact zipWith_div_scale c hc _ _

/-- Witness for C6 on a one-row dataset scaled by 2. -/
theorem get_per_100_scale_invariant_witness :
    get_per_100 (scaleCol (scaleCol ⟨[("m", [3]), ("a", [6])]⟩ "m" 2) "a" 2) "m" "a" =
      get_per_100 ⟨[("m", [3]), ("a", [6])]⟩ "m" "a" :=
  get_per_100_scale_invariant ⟨[("m", [3]), ("a", [6])]⟩ "m" "a" 2 (by decide) (by norm_num)

/-- C10: plot_bar_chart draws the bars of the dataset sorted ascending by
the x metric: the bar values, bottom first, are sorted and are a
permutation of the x metric column, and the i-th bar and the i-th y tick
label come from the same row of the sorted dataset. -/
theorem bar_chart_order_spec (df : List BarRow) :
    List.Sorted (· ≤ ·) (barValues df) ∧
    (barValues df).Perm (df.map BarRow.x) ∧
    (∀ i : Nat, i < (sortRows df).length →
        (barValues df).getD i 0 = ((sortRows df).getD i ⟨0, "", ""⟩).x ∧
        (barYTickLabels df).getD i "" = ((sortRows df).getD i ⟨0, "", ""⟩).label) := by
  refine ⟨?_, ?_, ?_⟩
  · have hs := List.sorted_insertionSort (fun a b : BarRow => a.x ≤ b.x) df
    unfold barValues sortRows
    exact List.pairwise_map.2 hs
  · unfold barValues sortRows
    exact (List.perm_insertionSort _ df).map BarRow.x
  · intro i hi
    have hlen1 : i < ((sortRows df).map BarRow.x).length := by simpa using hi
    have hlen2 : i < ((sortRows df).map BarRow.label).length := by simpa using hi
    unfold barValues barYTickLabels
    rw [List.getD_eq_getElem _ _ hlen1, List.getD_eq_getElem _ _ hlen2,
      List.getD_eq_getElem _ _ hi]
    simp [List.getElem_map]

/-- Witness for C10 on a two-row dataset given in descending order. -/
theorem bar_chart_order_spec_witness :
    (barValues [⟨2, "b", "B"⟩, ⟨1, "a", "A"⟩]).getD 0 0 =
      ((sortRows [⟨2, "b", "B"⟩, ⟨1, "a", "A"⟩]).getD 0 ⟨0, "", ""⟩).x ∧
    (barYTickLabels [⟨2, "b", "B"⟩, ⟨1, "a", "A"⟩]).getD 0 "" =
      ((sortRows [⟨2, "b", "B"⟩, ⟨1, "a", "A"⟩]).getD 0 ⟨0, "", ""⟩).label := by
  refine (bar_chart_order_spec [⟨2, "b", "B"⟩, ⟨1, "a", "A"⟩]).2.2 0 ?_
  have hlen :=
    (List.perm_insertionSort (fun a b : BarRow => a.x ≤ b.x)
      [⟨2, "b", "B"⟩, ⟨1, "a", "A"⟩]).length_eq
  unfold sortRows
  rw [hlen]
  norm_num

/-- C4 (counterexample): the claim says exactly the columns named
count_X_per_match, and no others, give rise to new columns.  The source
only tests that count_ and per_match occur somewhere in the name, so the
column discount_per_match is also matched: on a dataset holding it, the
returned list of new metrics is [discount_per_30_tip], yet
discount_per_match is not of the form count_X_per_match for any X. -/
theorem add_per_30_tip_names_cex :
    (add_per_30_tip_metrics ⟨[("discount_per_match", [1]),
        ("adjusted_min_tip_per_match", [30])]⟩).2 = ["discount_per_30_tip"] ∧
    (∀ X : String, "discount_per_match" ≠ "count_" ++ X ++ "_per_match") := by
  constructor
  · decide
  · intro X h
    have hd := congrArg (fun s : String => s.data.head?) h
    simp only [String.data_append] at hd
    simp at hd

/-- C4 (amended): every column whose name contains count_ and per_match
as substrings, and no other column, gives rise to a generated column with
per_match replaced by per_30_tip; the returned list of new names equals
exactly the matching source columns renamed, in column order, and every
generated name is present in the resulting dataset. -/
theorem add_per_30_tip_names_amended (df : DataFrame) :
    (add_per_30_tip_metrics df).2 =
      ((colNames df).filter (fun c => hasSub c "count_" && hasSub c "per_match")).map
        (fun c => pyReplace c "per_match" "per_30_tip") ∧
    (∀ c : String, c ∈ colNames df →
        (hasSub c "count_" && hasSub c "per_match") = true →
        pyReplace c "per_match" "per_30_tip" ∈ colNames (add_per_30_tip_metrics df).1) := by
  constructor
  · have h := addPer30Loop_snd (colNames df) df []
    simpa [add_per_30_tip_metrics] using h
  · intro c hc hcond
    exact addPer30Loop_gen (colNames df) df [] c hc hcond

/-- Witness for the amended C4: a matching column generates its renamed
sibling in the resulting dataset. -/
theorem add_per_30_tip_names_amended_witness :
    pyReplace "count_x_per_match" "per_match" "per_30_tip" ∈
      colNames (add_per_30_tip_metrics ⟨[("count_x_per_match", [10]),
        ("adjusted_min_tip_per_match", [30])]⟩).1 :=
  (add_per_30_tip_names_amended ⟨[("count_x_per_match", [10]),
    ("adjusted_min_tip_per_match", [30])]⟩).2 "count_x_per_match" (by decide) (by decide)

/-- C5: zero divisors propagate silently as non-finite floats: a row with
minutes_played_per_match equal to 0.0 makes get_per_90 return a
non-finite value at that row, and a single-valued z column (observed max
equal to observed min) makes every computed scatter size non-finite; no
case is an error value outside the float domain, so no exception is
modelled. -/
theorem zero_divisor_nonfinite :
    (∀ (cols : List (String × List PFloat)) (metric : String) (i : Nat),
        i < (get_per_90F cols metric).length →
        (getColF cols "minutes_played_per_match").getD i PFloat.nan = PFloat.fin 0 →
        ((get_per_90F cols metric).getD i PFloat.nan).isFinite = false) ∧
    (∀ (col : List PFloat) (q : ℚ), (∀ v ∈ col, v = PFloat.fin q) →
        ∀ s ∈ scatterSizesF col, s.isFinite = false) := by
  constructor
  · intro cols metric i hi hz
    have hmin := hi
    simp only [get_per_90F, List.length_zipWith, List.length_map, lt_min_iff] at hmin
    obtain ⟨h1, h2⟩ := hmin
    rw [List.getD_eq_getElem _ _ h2] at hz
    simp only [get_per_90F] at hi ⊢
    rw [List.getD_eq_getElem _ _ hi]
    simp only [List.getElem_zipWith, List.getElem_map]
    rw [hz]
    have h90 : PFloat.div (PFloat.fin 0) (PFloat.fin 90) = PFloat.fin 0 := by
      norm_num [PFloat.div]
    rw [h90]
    have hz0 : ¬ ((0 : ℚ) ≠ 0) := by norm_num
    cases hm : (getColF cols metric)[i] with
    | fin a =>
      simp only [PFloat.div]
      rw [if_neg hz0]
      split_ifs <;> rfl
    | inf => simp [PFloat.div, PFloat.isFinite]
    | neginf => simp [PFloat.div, PFloat.isFinite]
    | nan => simp [PFloat.div, PFloat.isFinite]
  · intro col q hall s hs
    simp only [scatterSizesF] at hs
    obtain ⟨v, hv, rfl⟩ := List.mem_map.1 hs
    have hne : col ≠ [] := List.ne_nil_of_mem hv
    have hmax := colMaxF_const col q hall hne
    have hmin2 := colMinF_const col q hall hne
    have hvq := hall v hv
    rw [hmax, hmin2, hvq]
    have hsub : PFloat.sub (PFloat.fin q) (PFloat.fin q) = PFloat.fin 0 := by
      simp [PFloat.sub]
    have hnewr : PFloat.sub (PFloat.fin 300) (PFloat.fin 50) = PFloat.fin 250 := by
      norm_num [PFloat.sub]
    rw [hsub, hnewr]
    have hmul : PFloat.mul (PFloat.fin 0) (PFloat.fin 250) = PFloat.fin 0 := by
      norm_num [PFloat.mul]
    rw [hmul]
    have hdiv : PFloat.div (PFloat.fin 0) (PFloat.fin 0) = PFloat.nan := by
      norm_num [PFloat.div]
    rw [hdiv]
    rfl

/-- Witness for C5: one row with 3.0 matches played over 0.0 minutes, and
the single-valued size column [5.0]. -/
theorem zero_divisor_nonfinite_witness :
    ((get_per_90F [("m", [PFloat.fin 3]), ("minutes_played_per_match", [PFloat.fin 0])]
        "m").getD 0 PFloat.nan).isFinite = false ∧
    PFloat.isFinite PFloat.nan = false := by
  constructor
  · refine zero_divisor_nonfinite.1
      [("m", [PFloat.fin 3]), ("minutes_played_per_match", [PFloat.fin 0])] "m" 0 ?_ ?_
    · simp only [get_per_90F, getColF, List.find?, String.reduceEq, decide_True,
        decide_False, List.map_cons, List.map_nil, List.zipWith_cons_cons,
        List.zipWith_nil_right, List.length_cons, List.length_nil]
      norm_num
    · rfl
  · refine zero_divisor_nonfinite.2 [PFloat.fin 5] 5 (by simp) PFloat.nan ?_
    simp only [scatterSizesF]
    refine List.mem_map.2 ⟨PFloat.fin 5, List.mem_singleton.2 rfl, ?_⟩
    have hmx : colMaxF [PFloat.fin 5] = PFloat.fin 5 := colMaxF_const _ 5 (by simp) (by simp)
    have hmn : colMinF [PFloat.fin 5] = PFloat.fin 5 := colMinF_const _ 5 (by simp) (by simp)
    rw [hmx, hmn]
    have hs5 : PFloat.sub (PFloat.fin 5) (PFloat.fin 5) = PFloat.fin 0 := by
      norm_num [PFloat.sub]
    have hr : PFloat.sub (PFloat.fin 300) (PFloat.fin 50) = PFloat.fin 250 := by
      norm_num [PFloat.sub]
    rw [hs5, hr]
    have hm0 : PFloat.mul (PFloat.fin 0) (PFloat.fin 250) = PFloat.fin 0 := by
      norm_num [PFloat.mul]
    rw [hm0]
    have hd0 : PFloat.div (PFloat.fin 0) (PFloat.fin 0) = PFloat.nan := by
      norm_num [PFloat.div]
    rw [hd0]
    rfl

/-- C8 (counterexample): the claim says every pre-existing column is
unchanged by add_per_30_tip_metrics.  A generated name can collide with
a pre-existing column: on a dataset already holding count_a_per_30_tip =
[999] next to count_a_per_match = [10] and adjusted_min_tip_per_match =
[30], the call overwrites count_a_per_30_tip with [10]. -/
theorem add_per_30_tip_frame_cex :
    getCol (add_per_30_tip_metrics ⟨[("count_a_per_match", [10]),
        ("count_a_per_30_tip", [999]), ("adjusted_min_tip_per_match", [30])]⟩).1
      "count_a_per_30_tip" = [10] ∧
    getCol ⟨[("count_a_per_match", [10]), ("count_a_per_30_tip", [999]),
        ("adjusted_min_tip_per_match", [30])]⟩ "count_a_per_30_tip" = [999] ∧
    ((10 : ℚ) ≠ 999) := by
  have hc1 : (hasSub "count_a_per_match" "count_"
      && hasSub "count_a_per_match" "per_match") = true := by decide
  have hc2 : (hasSub "count_a_per_30_tip" "count_"
      && hasSub "count_a_per_30_tip" "per_match") = false := by decide
  have hc3 : (hasSub "adjusted_min_tip_per_match" "count_"
      && hasSub "adjusted_min_tip_per_match" "per_match") = false := by decide
  have hrepl : pyReplace "count_a_per_match" "per_match" "per_30_tip"
      = "count_a_per_30_tip" := by decide
  refine ⟨?_, ?_, by norm_num⟩
  · have hv : get_per_30_tip ⟨[("count_a_per_match", [10]), ("count_a_per_30_tip", [999]),
        ("adjusted_min_tip_per_match", [30])]⟩ "count_a_per_match" = [10] := by
      simp only [get_per_30_tip, getCol, List.find?, String.reduceEq, decide_True,
        decide_False, List.map_cons, List.map_nil, List.zipWith_cons_cons,
        List.zipWith_nil_right]
      norm_num
    have hres : (add_per_30_tip_metrics ⟨[("count_a_per_match", [10]),
        ("count_a_per_30_tip", [999]), ("adjusted_min_tip_per_match", [30])]⟩).1 =
        setCol ⟨[("count_a_per_match", [10]), ("count_a_per_30_tip", [999]),
          ("adjusted_min_tip_per_match", [30])]⟩ "count_a_per_30_tip" [10] := by
      unfold add_per_30_tip_metrics
      have hnames : colNames ⟨[("count_a_per_match", [10]), ("count_a_per_30_tip", [999]),
          ("adjusted_min_tip_per_match", [30])]⟩ =
          ["count_a_per_match", "count_a_per_30_tip", "adjusted_min_tip_per_match"] := rfl
      rw [hnames]
      simp only [addPer30Loop, hc1, hc2, hc3, if_true, if_false, Bool.false_eq_true,
        reduceIte]
      rw [hrepl, hv]
    rw [hres, getCol_setCol_self]
  · simp only [getCol, List.find?, String.reduceEq, decide_True, decide_False]

/-- C8 (amended): every pre-existing column whose name is not among the
generated per_30_tip renames is unchanged by add_per_30_tip_metrics (a
generated rename may overwrite an existing column of the same name, and
the other normalisation functions compute fresh series without touching
the dataset). -/
theorem add_per_30_tip_frame_amended (df : DataFrame) (name : String)
    (h : name ∉ ((colNames df).filter
        (fun c => hasSub c "count_" && hasSub c "per_match")).map
        (fun c => pyReplace c "per_match" "per_30_tip")) :
    getCol (add_per_30_tip_metrics df).1 name = getCol df name := by
  unfold add_per_30_tip_metrics
  exact addPer30Loop_getCol (colNames df) df [] name h

/-- Witness for the amended C8: the player_name column is untouched. -/
theorem add_per_30_tip_frame_amended_witness :
    getCol (add_per_30_tip_metrics ⟨[("player_name", [1]),
        ("count_a_per_match", [10]), ("adjusted_min_tip_per_match", [30])]⟩).1
      "player_name" =
      getCol ⟨[("player_name", [1]), ("count_a_per_match", [10]),
        ("adjusted_min_tip_per_match", [30])]⟩ "player_name" :=
  add_per_30_tip_frame_amended ⟨[("player_name", [1]), ("count_a_per_match", [10]),
    ("adjusted_min_tip_per_match", [30])]⟩ "player_name" (by decide)

end SkillCorner

